import Mathlib

/-!
Shallow embedding of the AI horizontal pod autoscaler
(`autoscaler-set`): the scaling decision algorithm
(`crd/helper/scaling_algoirthm.py`), the forecast validator
(`autoscaler/helper/model_handler.py`), the Prometheus history-window
builder (`autoscaler/helper/prometheus_client.py`) and the per-target
control loop (`autoscaler/main.py`).

Machine floats are modelled as exact rationals; the one float behaviour
the code depends on — `math.ceil` raising on a NaN forecast — is modelled
by a dedicated `PFloat.nan` constructor and an `Except` in the required-pod
computation.  Timestamps are integer seconds.
-/

/-- A Python float as it flows through the scaling pipeline: either NaN or
an exact numeric value. -/
inductive PFloat where
  | nan : PFloat
  | val : ℚ → PFloat
deriving DecidableEq

/-- Executable ceiling on ℚ (`math.ceil`); `Rat.floor` reduces in the
kernel, unlike the `FloorRing` instance. -/
def ratCeil (q : ℚ) : ℤ := -Rat.floor (-q)

/-- `ScalingConfig` dataclass of `scaling_algoirthm.py`. -/
structure ScalingConfig where
  min_replicas : ℤ
  max_replicas : ℤ
  workload_per_pod : ℤ
  resource_removal_strategy : ℚ
  cooldown_period : ℤ
deriving DecidableEq

/-- `ScalingDecision` dataclass of `scaling_algoirthm.py`. -/
structure ScalingDecision where
  action : String
  target_replicas : ℤ
  current_replicas : ℤ
  predicted_workload : PFloat
  reason : Option String
  pods_surplus : Option ℤ
deriving DecidableEq

/-- `ScalingAlgorithm._calculate_required_pods`: `workload_per_pod <= 0`
returns 1 before any division; otherwise `max(1, ceil(w / wpp))`, where
`math.ceil` raises `ValueError` on a NaN input. -/
def calcRequiredPods (w : PFloat) (wpp : ℤ) : Except String ℤ :=
  if wpp ≤ 0 then .ok 1
  else
    match w with
    | .nan => .error "cannot convert float NaN to integer"
    | .val q => .ok (max 1 (ratCeil (q / (wpp : ℚ))))

/-- The required-pod count for a numeric forecast, as the code computes it
(`max(1, ceil(w / wpp))`, with `wpp <= 0` short-circuiting to 1). -/
def requiredFromForecast (q : ℚ) (wpp : ℤ) : ℤ :=
  if wpp ≤ 0 then 1 else max 1 (ratCeil (q / (wpp : ℚ)))

/-- The required-pod count as the spec phrases it: `ceil(forecast / wpp)`,
with `wpp <= 0` treated as 1, before the `min_replicas` floor (the inner
`max 1` of the code is not mentioned by the spec). -/
def requiredFromForecastSpec (q : ℚ) (wpp : ℤ) : ℤ :=
  if wpp ≤ 0 then 1 else ratCeil (q / (wpp : ℚ))

/-- `ScalingAlgorithm._is_in_cooldown` for one target: the stored
last-scaling timestamp (if any) plus the cooldown period is still in the
future. -/
def isInCooldown (now : ℤ) (lastScaling : Option ℤ) (cooldown_period : ℤ) : Bool :=
  match lastScaling with
  | none => false
  | some t => now < t + cooldown_period

/-- `ScalingAlgorithm._get_cooldown_remaining` for one target. -/
def cooldownRemaining (now : ℤ) (lastScaling : Option ℤ) (cooldown_period : ℤ) : ℤ :=
  match lastScaling with
  | none => 0
  | some t => max 0 (t + cooldown_period - now)

/-- The `no_action` decision shape returned by the cooldown, no-scaling and
error branches of `calculate_scaling_decision`. -/
def noActionDecision (w : PFloat) (current : ℤ) (reason : Option String) : ScalingDecision :=
  ⟨"no_action", current, current, w, reason, none⟩

/-- Body of the `try` block of
`ScalingAlgorithm.calculate_scaling_decision`; an `Except.error` is the
exception the `except` clause catches. -/
def calcScalingInner (now : ℤ) (lastScaling : Option ℤ) (w : PFloat) (current : ℤ)
    (cfg : ScalingConfig) : Except String ScalingDecision :=
  if isInCooldown now lastScaling cfg.cooldown_period then
    .ok (noActionDecision w current
      (some ("In cooldown period, " ++
        toString (cooldownRemaining now lastScaling cfg.cooldown_period) ++ "s remaining")))
  else
    match calcRequiredPods w cfg.workload_per_pod with
    | .error msg => .error msg
    | .ok r =>
      let pods_required := max r cfg.min_replicas
      if current < pods_required then
        let target := min pods_required cfg.max_replicas
        .ok ⟨"scale_out", target, current, w,
          some ("Predicted workload requires " ++ toString pods_required ++
            " pods, scaling out to " ++ toString target), none⟩
      else if pods_required < current then
        let pods_adjusted := max pods_required cfg.min_replicas
        let pods_surplus :=
          ratCeil (((current : ℚ) - (pods_adjusted : ℚ)) * cfg.resource_removal_strategy)
        let target := max (current - pods_surplus) cfg.min_replicas
        .ok ⟨"scale_in", target, current, w,
          some ("Predicted workload requires " ++ toString pods_required ++
            " pods, RRS removing " ++ toString pods_surplus ++ " of " ++
            toString (current - pods_adjusted) ++ " surplus pods"), some pods_surplus⟩
      else
        .ok (noActionDecision w current none)

/-- `ScalingAlgorithm.calculate_scaling_decision`: the `try` body with its
catch-all `except` clause, which converts any raised exception into a
`no_action` decision at `current_replicas`. -/
def calculate_scaling_decision (now : ℤ) (lastScaling : Option ℤ) (w : PFloat)
    (current : ℤ) (cfg : ScalingConfig) : ScalingDecision :=
  match calcScalingInner now lastScaling w current cfg with
  | .ok d => d
  | .error msg =>
    noActionDecision w current (some ("Error in scaling calculation: " ++ msg))

/-- `ValidationThresholds` dataclass of `model_handler.py`. -/
structure ValidationThresholds where
  max_spike_multiplier : ℚ
  max_historical_multiplier : ℚ
deriving DecidableEq

/-- `ModelHandler._validate_prediction`.  The historical data is a list of
one-element lists `[v]`; we model it by its values: `historical_data[-1][0]`
is the last value and `np.mean` is the mean of the values. -/
def validate_prediction (pred : ℚ) (hist : List ℚ) (th : ValidationThresholds) : Bool :=
  if pred < 0 then false
  else if hist.isEmpty then true
  else if 0 < hist.getLastD 0 ∧ hist.getLastD 0 * th.max_spike_multiplier < pred then false
  else if 0 < hist.sum / (hist.length : ℚ)
      ∧ (hist.sum / (hist.length : ℚ)) * th.max_historical_multiplier < pred then false
  else true

/-- One entry of the list returned by
`PrometheusClient.get_historical_workload`: either a bare Python float
(the zero-sample fallback builds `[0.0] * window_minutes`) or a one-element
list `[v]` (the aligned path appends `[closest_value]`). -/
inductive HistEntry where
  | bare : ℚ → HistEntry
  | boxed : ℚ → HistEntry
deriving DecidableEq

/-- One step of the closest-sample scan in `get_historical_workload`:
state is `(closest_value, closest_diff)`, `closest_diff = none` standing
for the initial `float('inf')`; a sample replaces the state when its
distance to the expected slot is strictly smaller and at most 30 s. -/
def closerUpdate (expected : ℤ) (acc : ℚ × Option ℤ) (s : ℤ × ℚ) : ℚ × Option ℤ :=
  let d := |s.1 - expected|
  match acc.2 with
  | none => if d ≤ 30 then (s.2, some d) else acc
  | some c => if d < c ∧ d ≤ 30 then (s.2, some d) else acc

/-- The value selected for one expected slot: the closest parsed sample
within 30 seconds, else the initial `0.0`. -/
def closestWithin30 (parsed : List (ℤ × ℚ)) (expected : ℤ) : ℚ :=
  (parsed.foldl (closerUpdate expected) ((0 : ℚ), (none : Option ℤ))).1

/-- The `i`-th expected minute-aligned timestamp (seconds):
`end_time - (window_minutes - 1 - i)` minutes, so the most recent minute
is last. -/
def slotTime (n : ℕ) (endTime : ℤ) (i : ℕ) : ℤ :=
  endTime - 60 * ((n : ℤ) - 1 - (i : ℤ))

/-- The window built by `get_historical_workload` after a successful parse:
all-zero bare floats when no sample parsed, otherwise one boxed
closest-sample value per expected slot. -/
def histWindow (parsed : List (ℤ × ℚ)) (n : ℕ) (endTime : ℤ) : List HistEntry :=
  if parsed.isEmpty then List.replicate n (.bare 0)
  else (List.range n).map fun i => .boxed (closestWithin30 parsed (slotTime n endTime i))

/-- `PrometheusClient.get_historical_workload`, starting from the parsed
query result: `none` models the query failure path (`data is None`). -/
def get_historical_workload (queryData : Option (List (ℤ × ℚ))) (n : ℕ) (endTime : ℤ) :
    Option (List HistEntry) :=
  match queryData with
  | none => none
  | some parsed => some (histWindow parsed n endTime)

/-- The external outcomes one `_process_deployment` cycle can observe for a
target: the replica read, the metrics fetch, the prediction
(validation-rejected means `none`), whether the patch call succeeds, and
whether an unexpected exception pre-empts the cycle. -/
structure TargetEnv where
  unexpected : Bool
  replicasRes : Option ℤ
  metricsRes : Option (List ℚ)
  predictionRes : Option ℚ
  applyOk : Bool
deriving DecidableEq

/-- Python truthiness of the historical data (`if not historical_data`):
only a non-empty list counts as usable metrics. -/
def metricsOk : Option (List ℚ) → Bool
  | some (_ :: _) => true
  | _ => false

/-- The scaling decision a `_process_deployment` cycle computes, or `none`
when an earlier step of the cycle fails and the cycle returns early. -/
def decisionOfEnv (env : TargetEnv) (cfg : ScalingConfig) (now : ℤ) (lastScaling : Option ℤ) :
    Option ScalingDecision :=
  if env.unexpected then none
  else
    match env.replicasRes with
    | none => none
    | some current =>
      if metricsOk env.metricsRes then
        match env.predictionRes with
        | none => none
        | some q => some (calculate_scaling_decision now lastScaling (.val q) current cfg)
      else none

/-- `scaling_decision.action in ["scale_out", "scale_in"]`. -/
def isScalingAction (d : ScalingDecision) : Bool :=
  d.action = "scale_out" ∨ d.action = "scale_in"

/-- Net effect of one `_process_deployment` call on the target's mutable
state: the new error counter, whether a patch was attempted, and whether
`execute_scaling_decision` recorded a new last-scaling timestamp. -/
structure CycleResult where
  error_count : ℕ
  patched : Bool
  recorded_cooldown : Bool
deriving DecidableEq

/-- `AIHorizontalPodAutoscaler._process_deployment` for one target:
any cycle-ending failure increments the error counter; a fully successful
cycle (applied scaling or `no_action`) resets it to 0; the cooldown
timestamp is recorded exactly when a scale_out/scale_in patch succeeds. -/
def processTarget (env : TargetEnv) (cfg : ScalingConfig) (now : ℤ) (lastScaling : Option ℤ)
    (ec : ℕ) : CycleResult :=
  match decisionOfEnv env cfg now lastScaling with
  | none => ⟨ec + 1, false, false⟩
  | some d =>
    if isScalingAction d then
      if env.applyOk then ⟨0, true, true⟩ else ⟨ec + 1, true, false⟩
    else ⟨0, false, false⟩

/-- Whether the cycle ends in failure (either an early return after a
failed step, or a failed patch of a scaling decision). -/
def cycleFails (env : TargetEnv) (cfg : ScalingConfig) (now : ℤ) (lastScaling : Option ℤ) :
    Bool :=
  match decisionOfEnv env cfg now lastScaling with
  | none => true
  | some d => isScalingAction d && !env.applyOk

/-- One target's registry entry in `monitored_deployments` (the fields the
scaling loop reads). -/
structure DeploymentEntry where
  scaling_config : ScalingConfig
  error_count : ℕ
deriving DecidableEq

/-- `monitored_deployments`: a string-keyed mapping. -/
abbrev Registry := List (String × DeploymentEntry)

/-- `ScalingAlgorithm.last_scaling_time`: a string-keyed mapping to the
last applied-scaling timestamp. -/
abbrev CooldownMap := List (String × ℤ)

/-- Lookup in a string-keyed association list (Python `dict` read). -/
def alistLookup {β : Type} (name : String) : List (String × β) → Option β
  | [] => none
  | (n, v) :: rest => if n = name then some v else alistLookup name rest

/-- Update/insert in a string-keyed association list (Python `dict`
assignment). -/
def alistInsert {β : Type} (name : String) (v : β) : List (String × β) → List (String × β)
  | [] => [(name, v)]
  | (n, v0) :: rest =>
    if n = name then (n, v) :: rest else (n, v0) :: alistInsert name v rest

/-- The cycle outcome of one target within a loop iteration, reading its
own cooldown entry. -/
def stepResult (envs : String → TargetEnv) (now : ℤ) (name : String) (e : DeploymentEntry)
    (cdm : CooldownMap) : CycleResult :=
  processTarget (envs name) e.scaling_config now (alistLookup name cdm) e.error_count

/-- The cooldown map after one target's cycle: `execute_scaling_decision`
stores `now` under the target's name exactly when a scaling action was
applied successfully. -/
def stepCdm (envs : String → TargetEnv) (now : ℤ) (name : String) (e : DeploymentEntry)
    (cdm : CooldownMap) : CooldownMap :=
  if (stepResult envs now name e cdm).recorded_cooldown then alistInsert name now cdm else cdm

/-- The per-target body of `AIHorizontalPodAutoscaler.run`'s loop, over the
snapshot of monitored targets: process each target in order, thread the
cooldown map through, and drop a target as soon as its error counter
exceeds 10. -/
def runIteration (envs : String → TargetEnv) (now : ℤ) :
    Registry → CooldownMap → Registry × CooldownMap
  | [], cdm => ([], cdm)
  | (name, e) :: rest, cdm =>
    (if 10 < (stepResult envs now name e cdm).error_count then
        (runIteration envs now rest (stepCdm envs now name e cdm)).1
      else (name, ⟨e.scaling_config, (stepResult envs now name e cdm).error_count⟩) ::
        (runIteration envs now rest (stepCdm envs now name e cdm)).1,
     (runIteration envs now rest (stepCdm envs now name e cdm)).2)

/-- A CRD policy as `_process_crd_configuration` stores it. -/
structure CrdPolicy where
  deployment_name : String
  scaling_config : ScalingConfig
deriving DecidableEq

/-- The operator state the reload path touches: the monitored registry and
the scaling algorithm's cooldown map. -/
structure AutoscalerState where
  monitored : Registry
  cooldowns : CooldownMap
deriving DecidableEq

/-- `_process_crd_configuration`: stores a fresh registry entry for the
CRD's target (`error_count` 0), replacing any existing entry. -/
def process_crd_configuration (crd : CrdPolicy) (reg : Registry) : Registry :=
  alistInsert crd.deployment_name ⟨crd.scaling_config, 0⟩ reg

/-- `_load_crd_configurations` over the CRD list: processes each CRD in
order.  Only `monitored_deployments` is written; the scaling algorithm's
`last_scaling_time` is not touched by the reload path. -/
def reload_configurations (crds : List CrdPolicy) (s : AutoscalerState) : AutoscalerState :=
  { s with monitored := crds.foldl (fun r c => process_crd_configuration c r) s.monitored }

lemma ratFloor_eq_floor (q : ℚ) : Rat.floor q = ⌊q⌋ := by
  rw [Rat.floor_def', Rat.floor_def]

lemma ratCeil_eq_ceil (q : ℚ) : ratCeil q = ⌈q⌉ := by
  rw [ratCeil, ratFloor_eq_floor, Int.floor_neg, neg_neg]

lemma calcRequiredPods_val (q : ℚ) (wpp : ℤ) :
    calcRequiredPods (.val q) wpp = .ok (requiredFromForecast q wpp) := by
  unfold calcRequiredPods requiredFromForecast
  by_cases h : wpp ≤ 0 <;> simp [h]

lemma one_le_requiredFromForecast (q : ℚ) (wpp : ℤ) : 1 ≤ requiredFromForecast q wpp := by
  unfold requiredFromForecast
  by_cases h : wpp ≤ 0 <;> simp [h]

lemma decision_cooldown_eq (now : ℤ) (lastScaling : Option ℤ) (w : PFloat) (current : ℤ)
    (cfg : ScalingConfig) (hcool : isInCooldown now lastScaling cfg.cooldown_period = true) :
    calculate_scaling_decision now lastScaling w current cfg =
      noActionDecision w current
        (some ("In cooldown period, " ++
          toString (cooldownRemaining now lastScaling cfg.cooldown_period) ++ "s remaining")) := by
  unfold calculate_scaling_decision calcScalingInner
  simp [hcool]

lemma decision_scale_out_eq (now : ℤ) (lastScaling : Option ℤ) (q : ℚ) (current : ℤ)
    (cfg : ScalingConfig) (hcool : isInCooldown now lastScaling cfg.cooldown_period = false)
    (h : current < max (requiredFromForecast q cfg.workload_per_pod) cfg.min_replicas) :
    calculate_scaling_decision now lastScaling (.val q) current cfg =
      ⟨"scale_out",
        min (max (requiredFromForecast q cfg.workload_per_pod) cfg.min_replicas) cfg.max_replicas,
        current, .val q,
        some ("Predicted workload requires " ++
          toString (max (requiredFromForecast q cfg.workload_per_pod) cfg.min_replicas) ++
          " pods, scaling out to " ++
          toString (min (max (requiredFromForecast q cfg.workload_per_pod) cfg.min_replicas)
            cfg.max_replicas)), none⟩ := by
  unfold calculate_scaling_decision calcScalingInner
  simp [hcool, calcRequiredPods_val, h]

lemma decision_scale_in_eq (now : ℤ) (lastScaling : Option ℤ) (q : ℚ) (current : ℤ)
    (cfg : ScalingConfig) (hcool : isInCooldown now lastScaling cfg.cooldown_period = false)
    (h : max (requiredFromForecast q cfg.workload_per_pod) cfg.min_replicas < current) :
    calculate_scaling_decision now lastScaling (.val q) current cfg =
      (let pods_required := max (requiredFromForecast q cfg.workload_per_pod) cfg.min_replicas
       let pods_surplus :=
         ratCeil (((current : ℚ) - (pods_required : ℚ)) * cfg.resource_removal_strategy)
       ⟨"scale_in", max (current - pods_surplus) cfg.min_replicas, current, .val q,
         some ("Predicted workload requires " ++ toString pods_required ++
           " pods, RRS removing " ++ toString pods_surplus ++ " of " ++
           toString (current - pods_required) ++ " surplus pods"), some pods_surplus⟩) := by
  unfold calculate_scaling_decision calcScalingInner
  have hadj : max (max (requiredFromForecast q cfg.workload_per_pod) cfg.min_replicas)
      cfg.min_replicas = max (requiredFromForecast q cfg.workload_per_pod) cfg.min_replicas :=
    max_eq_left (le_max_right _ _)
  simp [hcool, calcRequiredPods_val, h, not_lt_of_gt h, hadj]

lemma decision_no_action_eq (now : ℤ) (lastScaling : Option ℤ) (q : ℚ) (current : ℤ)
    (cfg : ScalingConfig) (hcool : isInCooldown now lastScaling cfg.cooldown_period = false)
    (h : max (requiredFromForecast q cfg.workload_per_pod) cfg.min_replicas = current) :
    calculate_scaling_decision now lastScaling (.val q) current cfg =
      noActionDecision (.val q) current none := by
  unfold calculate_scaling_decision calcScalingInner
  simp [hcool, calcRequiredPods_val, h]

lemma decision_nan_eq (now : ℤ) (lastScaling : Option ℤ) (current : ℤ)
    (cfg : ScalingConfig) (hcool : isInCooldown now lastScaling cfg.cooldown_period = false)
    (hwpp : 0 < cfg.workload_per_pod) :
    calculate_scaling_decision now lastScaling .nan current cfg =
      noActionDecision .nan current
        (some "Error in scaling calculation: cannot convert float NaN to integer") := by
  unfold calculate_scaling_decision calcScalingInner calcRequiredPods
  simp [hcool, not_le_of_gt hwpp]

lemma decision_error_eq (now : ℤ) (lastScaling : Option ℤ) (w : PFloat) (current : ℤ)
    (cfg : ScalingConfig) (msg : String)
    (herr : calcScalingInner now lastScaling w current cfg = .error msg) :
    calculate_scaling_decision now lastScaling w current cfg =
      noActionDecision w current (some ("Error in scaling calculation: " ++ msg)) := by
  unfold calculate_scaling_decision
  rw [herr]

lemma decision_ok_eq (now : ℤ) (lastScaling : Option ℤ) (w : PFloat) (current : ℤ)
    (cfg : ScalingConfig) (d : ScalingDecision)
    (hok : calcScalingInner now lastScaling w current cfg = .ok d) :
    calculate_scaling_decision now lastScaling w current cfg = d := by
  unfold calculate_scaling_decision
  rw [hok]

lemma target_bounds_of_ok (now : ℤ) (lastScaling : Option ℤ) (w : PFloat) (current r : ℤ)
    (cfg : ScalingConfig)
    (hcool : isInCooldown now lastScaling cfg.cooldown_period = false)
    (hreq : calcRequiredPods w cfg.workload_per_pod = .ok r)
    (h2 : cfg.min_replicas ≤ cfg.max_replicas)
    (h3 : 0 ≤ cfg.resource_removal_strategy)
    (h5 : cfg.min_replicas ≤ current) (h6 : current ≤ cfg.max_replicas) :
    cfg.min_replicas ≤ (calculate_scaling_decision now lastScaling w current cfg).target_replicas
    ∧ (calculate_scaling_decision now lastScaling w current cfg).target_replicas ≤
        cfg.max_replicas := by
  unfold calculate_scaling_decision calcScalingInner
  simp only [hcool, Bool.false_eq_true, if_false, hreq]
  by_cases hout : current < max r cfg.min_replicas
  · simp only [hout, if_true]
    exact ⟨le_min (le_max_right r cfg.min_replicas) h2, min_le_right _ _⟩
  · by_cases hin : max r cfg.min_replicas < current
    · simp only [hout, if_false, hin, if_true]
      have hadj : max (max r cfg.min_replicas) cfg.min_replicas ≤ current :=
        max_le (le_of_lt hin) h5
      have hsur : 0 ≤ ratCeil (((current : ℚ) -
          ((max (max r cfg.min_replicas) cfg.min_replicas : ℤ) : ℚ)) *
          cfg.resource_removal_strategy) := by
        rw [ratCeil_eq_ceil]
        apply Int.ceil_nonneg
        apply mul_nonneg _ h3
        rw [sub_nonneg]
        exact_mod_cast hadj
      refine ⟨le_max_right _ _, max_le ?_ h2⟩
      omega
    · simp only [hout, if_false, hin, if_false, noActionDecision]
      exact ⟨h5, h6⟩

/-- C1, amended: with a valid scaling policy (`0 < min_replicas ≤
max_replicas`, `0 ≤ resource_removal_strategy ≤ 1`) and a current replica
count already inside `[min_replicas, max_replicas]`, every decision's
`target_replicas` stays inside `[min_replicas, max_replicas]`, for every
forecast and every cooldown state. -/
theorem scaling_target_replicas_bounded
    (now : ℤ) (lastScaling : Option ℤ) (w : PFloat) (current : ℤ) (cfg : ScalingConfig)
    (h1 : 0 < cfg.min_replicas) (h2 : cfg.min_replicas ≤ cfg.max_replicas)
    (h3 : 0 ≤ cfg.resource_removal_strategy) (h4 : cfg.resource_removal_strategy ≤ 1)
    (h5 : cfg.min_replicas ≤ current) (h6 : current ≤ cfg.max_replicas) :
    cfg.min_replicas ≤ (calculate_scaling_decision now lastScaling w current cfg).target_replicas
    ∧ (calculate_scaling_decision now lastScaling w current cfg).target_replicas ≤
        cfg.max_replicas := by
  by_cases hcool : isInCooldown now lastScaling cfg.cooldown_period
  · rw [decision_cooldown_eq now lastScaling w current cfg hcool]
    exact ⟨h5, h6⟩
  · rw [Bool.not_eq_true] at hcool
    cases hreq : calcRequiredPods w cfg.workload_per_pod with
    | error msg =>
      have herr : calcScalingInner now lastScaling w current cfg = .error msg := by
        unfold calcScalingInner
        simp [hcool, hreq]
      rw [decision_error_eq now lastScaling w current cfg msg herr]
      exact ⟨h5, h6⟩
    | ok r => exact target_bounds_of_ok now lastScaling w current r cfg hcool hreq h2 h3 h5 h6

/-- C1, counterexample to the claim as stated: with the valid config
`min_replicas = max_replicas = 1` and a cooldown state that is active,
a current replica count of 0 is echoed back as `target_replicas = 0`,
outside `[1, 1]`. -/
theorem scaling_target_replicas_bounded_cx :
    0 < (ScalingConfig.mk 1 1 1 0 300).min_replicas
    ∧ (ScalingConfig.mk 1 1 1 0 300).min_replicas ≤ (ScalingConfig.mk 1 1 1 0 300).max_replicas
    ∧ (calculate_scaling_decision 0 (some 0) (.val 0) 0
        (ScalingConfig.mk 1 1 1 0 300)).target_replicas <
        (ScalingConfig.mk 1 1 1 0 300).min_replicas := by
  refine ⟨by decide, by decide, ?_⟩
  rw [decision_cooldown_eq 0 (some 0) (.val 0) 0 (ScalingConfig.mk 1 1 1 0 300) (by decide)]
  decide

/-- C1 witness: the amended bound theorem at a concrete scale-in input. -/
theorem scaling_target_replicas_bounded_witness :
    (ScalingConfig.mk 1 10 2 0 300).min_replicas ≤
      (calculate_scaling_decision 5 none (.val 5) 10
        (ScalingConfig.mk 1 10 2 0 300)).target_replicas
    ∧ (calculate_scaling_decision 5 none (.val 5) 10
        (ScalingConfig.mk 1 10 2 0 300)).target_replicas ≤
        (ScalingConfig.mk 1 10 2 0 300).max_replicas :=
  scaling_target_replicas_bounded 5 none (.val 5) 10 (ScalingConfig.mk 1 10 2 0 300)
    (by decide) (by decide) (by decide) (by decide) (by decide) (by decide)

lemma requiredSpec_max_eq (q : ℚ) (wpp minr : ℤ) (hmin : 1 ≤ minr) :
    max (requiredFromForecastSpec q wpp) minr = max (requiredFromForecast q wpp) minr := by
  unfold requiredFromForecastSpec requiredFromForecast
  by_cases h : wpp ≤ 0
  · simp [h]
  · simp only [h, if_false]
    omega

/-- C2: outside cooldown, when the required pod count (the spec's
`max(ceil(forecast / wpp), min_replicas)` with `wpp ≤ 0` treated as 1) is
strictly below `current_replicas`, the decision is `scale_in` with
`pods_surplus = ceil((current - max(required, min)) * rrs)` and
`target_replicas = max(current - pods_surplus, min)`. -/
theorem scale_in_gradual_removal
    (now : ℤ) (lastScaling : Option ℤ) (q : ℚ) (current : ℤ) (cfg : ScalingConfig)
    (hmin : 1 ≤ cfg.min_replicas)
    (hcool : isInCooldown now lastScaling cfg.cooldown_period = false)
    (hreq : max (requiredFromForecastSpec q cfg.workload_per_pod) cfg.min_replicas < current) :
    (calculate_scaling_decision now lastScaling (.val q) current cfg).action = "scale_in"
    ∧ (calculate_scaling_decision now lastScaling (.val q) current cfg).pods_surplus =
        some (ratCeil (((current : ℚ) -
          ((max (max (requiredFromForecastSpec q cfg.workload_per_pod) cfg.min_replicas)
            cfg.min_replicas : ℤ) : ℚ)) * cfg.resource_removal_strategy))
    ∧ (calculate_scaling_decision now lastScaling (.val q) current cfg).target_replicas =
        max (current - ratCeil (((current : ℚ) -
          ((max (max (requiredFromForecastSpec q cfg.workload_per_pod) cfg.min_replicas)
            cfg.min_replicas : ℤ) : ℚ)) * cfg.resource_removal_strategy))
          cfg.min_replicas := by
  have hmx : max (max (requiredFromForecastSpec q cfg.workload_per_pod) cfg.min_replicas)
      cfg.min_replicas = max (requiredFromForecastSpec q cfg.workload_per_pod)
        cfg.min_replicas := max_eq_left (le_max_right _ _)
  rw [hmx]
  rw [requiredSpec_max_eq q cfg.workload_per_pod cfg.min_replicas hmin] at hreq ⊢
  rw [decision_scale_in_eq now lastScaling q current cfg hcool hreq]
  exact ⟨rfl, rfl, rfl⟩

unseal Rat.add Rat.sub Rat.mul Rat.inv in
/-- C2 witness: `current = 10`, forecast 2, `workload_per_pod = 1`,
`min_replicas = 1`, removal fraction 1/2: surplus 4, target 6. -/
theorem scale_in_gradual_removal_witness :
    (calculate_scaling_decision 0 none (.val 2) 10
      (ScalingConfig.mk 1 20 1 (mkRat 1 2) 300)).action = "scale_in"
    ∧ (calculate_scaling_decision 0 none (.val 2) 10
        (ScalingConfig.mk 1 20 1 (mkRat 1 2) 300)).pods_surplus = some 4
    ∧ (calculate_scaling_decision 0 none (.val 2) 10
        (ScalingConfig.mk 1 20 1 (mkRat 1 2) 300)).target_replicas = 6 := by
  have h := scale_in_gradual_removal 0 none 2 10 (ScalingConfig.mk 1 20 1 (mkRat 1 2) 300)
    (by decide) (by decide) (by decide)
  refine ⟨h.1, ?_, ?_⟩
  · rw [h.2.1]
    decide
  · rw [h.2.2]
    decide

/-- C8: an internal arithmetic failure never escapes
`calculate_scaling_decision`: a NaN forecast with a positive
`workload_per_pod` (outside cooldown) degrades to `no_action` at
`current_replicas` with an error reason, and in general every error of the
`try` body is converted to that `no_action` fallback decision. -/
theorem decision_absorbs_internal_errors
    (now : ℤ) (lastScaling : Option ℤ) (current : ℤ) (cfg : ScalingConfig)
    (now2 : ℤ) (last2 : Option ℤ) (w2 : PFloat) (current2 : ℤ) (cfg2 : ScalingConfig)
    (msg : String)
    (hwpp : 0 < cfg.workload_per_pod)
    (hcool : isInCooldown now lastScaling cfg.cooldown_period = false)
    (herr : calcScalingInner now2 last2 w2 current2 cfg2 = .error msg) :
    (calculate_scaling_decision now lastScaling .nan current cfg).action = "no_action"
    ∧ (calculate_scaling_decision now lastScaling .nan current cfg).target_replicas = current
    ∧ (calculate_scaling_decision now lastScaling .nan current cfg).reason =
        some "Error in scaling calculation: cannot convert float NaN to integer"
    ∧ calculate_scaling_decision now2 last2 w2 current2 cfg2 =
        noActionDecision w2 current2 (some ("Error in scaling calculation: " ++ msg)) := by
  rw [decision_nan_eq now lastScaling current cfg hcool hwpp]
  exact ⟨rfl, rfl, rfl, decision_error_eq now2 last2 w2 current2 cfg2 msg herr⟩

/-- C8 witness: the NaN fallback at a concrete input. -/
theorem decision_absorbs_internal_errors_witness :
    (calculate_scaling_decision 0 none .nan 7 (ScalingConfig.mk 1 10 1 0 300)).action =
      "no_action"
    ∧ (calculate_scaling_decision 0 none .nan 7 (ScalingConfig.mk 1 10 1 0 300)).target_replicas
        = 7
    ∧ (calculate_scaling_decision 0 none .nan 7 (ScalingConfig.mk 1 10 1 0 300)).reason =
        some "Error in scaling calculation: cannot convert float NaN to integer"
    ∧ calculate_scaling_decision 0 none .nan 7 (ScalingConfig.mk 1 10 1 0 300) =
        noActionDecision .nan 7
          (some ("Error in scaling calculation: " ++ "cannot convert float NaN to integer")) :=
  decision_absorbs_internal_errors 0 none 7 (ScalingConfig.mk 1 10 1 0 300)
    0 none .nan 7 (ScalingConfig.mk 1 10 1 0 300) "cannot convert float NaN to integer"
    (by decide) (by decide) (by rfl)

/-- C3: a decision computed within `cooldown_period` seconds of a recorded
scaling time is `no_action` at `current_replicas` whose reason cites the
remaining cooldown seconds, for every forecast; and a processing cycle
records a new last-scaling timestamp only when it computed a
scale_out/scale_in decision and the patch succeeded — computing a decision
alone never records one. -/
theorem cooldown_gates_and_pure_decision
    (now t : ℤ) (w : PFloat) (current : ℤ) (cfg : ScalingConfig)
    (env : TargetEnv) (cfg2 : ScalingConfig) (now2 : ℤ) (last2 : Option ℤ) (ec : ℕ)
    (h : now < t + cfg.cooldown_period) :
    (calculate_scaling_decision now (some t) w current cfg).action = "no_action"
    ∧ (calculate_scaling_decision now (some t) w current cfg).target_replicas = current
    ∧ (calculate_scaling_decision now (some t) w current cfg).reason =
        some ("In cooldown period, " ++ toString (t + cfg.cooldown_period - now) ++
          "s remaining")
    ∧ ((processTarget env cfg2 now2 last2 ec).recorded_cooldown = true →
        env.applyOk = true ∧ ∃ d, decisionOfEnv env cfg2 now2 last2 = some d ∧
          isScalingAction d = true) := by
  have hcool : isInCooldown now (some t) cfg.cooldown_period = true := by
    unfold isInCooldown
    exact decide_eq_true h
  have hrem : cooldownRemaining now (some t) cfg.cooldown_period =
      t + cfg.cooldown_period - now := by
    simp only [cooldownRemaining]
    omega
  rw [decision_cooldown_eq now (some t) w current cfg hcool, hrem]
  refine ⟨rfl, rfl, rfl, ?_⟩
  intro hrec
  unfold processTarget at hrec
  cases hd : decisionOfEnv env cfg2 now2 last2 with
  | none =>
    rw [hd] at hrec
    simp at hrec
  | some d =>
    rw [hd] at hrec
    by_cases hs : isScalingAction d
    · by_cases ha : env.applyOk
      · exact ⟨ha, d, rfl, hs⟩
      · simp [hs, ha] at hrec
    · simp [hs] at hrec

/-- C3 witness: cooldown gating at a concrete input, with a concrete cycle
that did apply a scale_out. -/
theorem cooldown_gates_and_pure_decision_witness :
    (calculate_scaling_decision 100 (some 0) (.val 5) 7
      (ScalingConfig.mk 1 10 1 0 300)).action = "no_action"
    ∧ (calculate_scaling_decision 100 (some 0) (.val 5) 7
        (ScalingConfig.mk 1 10 1 0 300)).target_replicas = 7
    ∧ (calculate_scaling_decision 100 (some 0) (.val 5) 7
        (ScalingConfig.mk 1 10 1 0 300)).reason =
        some ("In cooldown period, " ++ toString ((0 : ℤ) + 300 - 100) ++ "s remaining")
    ∧ ((processTarget (TargetEnv.mk false (some 1) (some [3]) (some 50) true)
          (ScalingConfig.mk 1 10 1 0 300) 0 none 3).recorded_cooldown = true →
        (TargetEnv.mk false (some 1) (some [3]) (some 50) true).applyOk = true
        ∧ ∃ d, decisionOfEnv (TargetEnv.mk false (some 1) (some [3]) (some 50) true)
            (ScalingConfig.mk 1 10 1 0 300) 0 none = some d ∧ isScalingAction d = true) :=
  cooldown_gates_and_pure_decision 100 0 (.val 5) 7 (ScalingConfig.mk 1 10 1 0 300)
    (TargetEnv.mk false (some 1) (some [3]) (some 50) true)
    (ScalingConfig.mk 1 10 1 0 300) 0 none 3 (by decide)

/-- C9: outside cooldown with removal fraction 0 and required pods below
current, the decision is `scale_in` with `pods_surplus = 0` and
`target_replicas = current_replicas`, and the control loop still treats it
as a scaling action: it patches the deployment and, on success, records a
cooldown timestamp and resets the error counter. -/
theorem rrs_zero_scale_in_is_noop
    (now : ℤ) (lastScaling : Option ℤ) (q : ℚ) (current : ℤ) (cfg : ScalingConfig)
    (env : TargetEnv) (ec : ℕ)
    (hrrs : cfg.resource_removal_strategy = 0)
    (hcool : isInCooldown now lastScaling cfg.cooldown_period = false)
    (hreq : max (requiredFromForecast q cfg.workload_per_pod) cfg.min_replicas < current)
    (henv1 : env.unexpected = false)
    (henv2 : env.replicasRes = some current)
    (henv3 : metricsOk env.metricsRes = true)
    (henv4 : env.predictionRes = some q)
    (henv5 : env.applyOk = true) :
    (calculate_scaling_decision now lastScaling (.val q) current cfg).action = "scale_in"
    ∧ (calculate_scaling_decision now lastScaling (.val q) current cfg).pods_surplus = some 0
    ∧ (calculate_scaling_decision now lastScaling (.val q) current cfg).target_replicas =
        current
    ∧ (processTarget env cfg now lastScaling ec).patched = true
    ∧ (processTarget env cfg now lastScaling ec).recorded_cooldown = true
    ∧ (processTarget env cfg now lastScaling ec).error_count = 0 := by
  have hd := decision_scale_in_eq now lastScaling q current cfg hcool hreq
  have hzero : ratCeil (((current : ℚ) -
      ((max (requiredFromForecast q cfg.workload_per_pod) cfg.min_replicas : ℤ) : ℚ)) *
      cfg.resource_removal_strategy) = 0 := by
    rw [hrrs, mul_zero, ratCeil_eq_ceil, Int.ceil_zero]
  simp only [hzero] at hd
  have hmin_lt : cfg.min_replicas < current := lt_of_le_of_lt (le_max_right _ _) hreq
  have htar : max (current - 0) cfg.min_replicas = current := by
    omega
  rw [htar] at hd
  have hproc : processTarget env cfg now lastScaling ec = ⟨0, true, true⟩ := by
    have hdoe : decisionOfEnv env cfg now lastScaling =
        some (calculate_scaling_decision now lastScaling (.val q) current cfg) := by
      unfold decisionOfEnv
      rw [henv1, henv2]
      simp [henv3, henv4]
    have hact : isScalingAction (calculate_scaling_decision now lastScaling (.val q)
        current cfg) = true := by
      rw [hd]
      rfl
    unfold processTarget
    rw [hdoe]
    simp [hact, henv5]
  rw [hd, hproc]
  exact ⟨rfl, rfl, rfl, rfl, rfl, rfl⟩

unseal Rat.add Rat.sub Rat.mul Rat.inv in
/-- C9 witness: forecast 2 against 10 current replicas with removal
fraction 0. -/
theorem rrs_zero_scale_in_is_noop_witness :
    (calculate_scaling_decision 0 none (.val 2) 10
      (ScalingConfig.mk 1 20 1 0 300)).action = "scale_in"
    ∧ (calculate_scaling_decision 0 none (.val 2) 10
        (ScalingConfig.mk 1 20 1 0 300)).pods_surplus = some 0
    ∧ (calculate_scaling_decision 0 none (.val 2) 10
        (ScalingConfig.mk 1 20 1 0 300)).target_replicas = 10
    ∧ (processTarget (TargetEnv.mk false (some 10) (some [2]) (some 2) true)
        (ScalingConfig.mk 1 20 1 0 300) 0 none 5).patched = true
    ∧ (processTarget (TargetEnv.mk false (some 10) (some [2]) (some 2) true)
        (ScalingConfig.mk 1 20 1 0 300) 0 none 5).recorded_cooldown = true
    ∧ (processTarget (TargetEnv.mk false (some 10) (some [2]) (some 2) true)
        (ScalingConfig.mk 1 20 1 0 300) 0 none 5).error_count = 0 :=
  rrs_zero_scale_in_is_noop 0 none 2 10 (ScalingConfig.mk 1 20 1 0 300)
    (TargetEnv.mk false (some 10) (some [2]) (some 2) true) 5
    (by decide) (by decide) (by decide) (by decide) (by decide) (by decide) (by decide)
    (by decide)

unseal Rat.add Rat.sub Rat.mul Rat.inv in
/-- C6: the validator returns false exactly when the forecast is negative,
or the last history value is positive and the forecast exceeds it times
`max_spike_multiplier`, or the history mean is positive and the forecast
exceeds it times `max_historical_multiplier`; an empty history accepts any
non-negative forecast; -1 is always rejected; 1000 against a last value of
10 with spike multiplier 3 is rejected; 20 is accepted. -/
theorem validate_prediction_spec (pred : ℚ) (hist : List ℚ) (th : ValidationThresholds) :
    (validate_prediction pred hist th = false ↔
      (pred < 0
        ∨ (hist ≠ [] ∧ 0 < hist.getLastD 0
            ∧ hist.getLastD 0 * th.max_spike_multiplier < pred)
        ∨ (hist ≠ [] ∧ 0 < hist.sum / (hist.length : ℚ)
            ∧ (hist.sum / (hist.length : ℚ)) * th.max_historical_multiplier < pred)))
    ∧ (hist = [] → 0 ≤ pred → validate_prediction pred hist th = true)
    ∧ validate_prediction (-1) hist th = false
    ∧ validate_prediction 1000 [10] (ValidationThresholds.mk 3 2) = false
    ∧ validate_prediction 20 [10] (ValidationThresholds.mk 3 2) = true := by
  refine ⟨?_, ?_, ?_, by decide, by decide⟩
  · unfold validate_prediction
    by_cases h0 : pred < 0
    · rw [if_pos h0]
      simp [h0]
    · rw [if_neg h0]
      by_cases hemp : hist.isEmpty
      · rw [if_pos hemp]
        have he : hist = [] := List.isEmpty_iff.mp hemp
        subst he
        simp [h0]
      · rw [if_neg hemp]
        have hne : hist ≠ [] := by
          intro he
          rw [he] at hemp
          exact hemp rfl
        by_cases h1 : 0 < hist.getLastD 0 ∧ hist.getLastD 0 * th.max_spike_multiplier < pred
        · rw [if_pos h1]
          exact ⟨fun _ => Or.inr (Or.inl ⟨hne, h1.1, h1.2⟩), fun _ => rfl⟩
        · rw [if_neg h1]
          by_cases h2 : 0 < hist.sum / (hist.length : ℚ)
              ∧ (hist.sum / (hist.length : ℚ)) * th.max_historical_multiplier < pred
          · rw [if_pos h2]
            exact ⟨fun _ => Or.inr (Or.inr ⟨hne, h2.1, h2.2⟩), fun _ => rfl⟩
          · rw [if_neg h2]
            constructor
            · intro hfalse
              exact absurd hfalse (by simp)
            · intro hor
              rcases hor with h | ⟨_, ha, hb⟩ | ⟨_, ha, hb⟩
              · exact absurd h h0
              · exact absurd ⟨ha, hb⟩ h1
              · exact absurd ⟨ha, hb⟩ h2
  · intro he hp
    subst he
    unfold validate_prediction
    rw [if_neg (not_lt.mpr hp)]
    rfl
  · unfold validate_prediction
    rw [if_pos (by norm_num)]

/-- C6 witness: the empty-history clause at a concrete non-negative
forecast. -/
theorem validate_prediction_spec_witness :
    validate_prediction 0 [] (ValidationThresholds.mk 3 2) = true :=
  (validate_prediction_spec 0 [] (ValidationThresholds.mk 3 2)).2.1 rfl (by decide)

/-- C10: on a successful query the returned window entries have two
shapes: with at least one parsed sample every entry is a boxed one-element
list value; with zero parsed samples every entry is a bare float 0.0 —
and the two shapes differ. -/
theorem window_entry_shapes (parsed : List (ℤ × ℚ)) (n : ℕ) (endTime : ℤ) :
    (parsed = [] → get_historical_workload (some parsed) n endTime =
      some (List.replicate n (HistEntry.bare 0)))
    ∧ (parsed ≠ [] → get_historical_workload (some parsed) n endTime =
        some ((List.range n).map fun i =>
          HistEntry.boxed (closestWithin30 parsed (slotTime n endTime i))))
    ∧ HistEntry.bare 0 ≠ HistEntry.boxed 0 := by
  refine ⟨?_, ?_, by decide⟩
  · intro h
    subst h
    rfl
  · intro h
    cases parsed with
    | nil => exact absurd rfl h
    | cons a t => rfl

/-- C10 witness: a one-sample window evaluates to boxed entries. -/
theorem window_entry_shapes_witness :
    get_historical_workload (some [((0 : ℤ), (1 : ℚ))]) 1 0 = some [HistEntry.boxed 1] := by
  have h := (window_entry_shapes [((0 : ℤ), (1 : ℚ))] 1 0).2.1 (by decide)
  rw [h]
  decide

/-- The Python replacement condition `diff < closest_diff and diff <= 30`
(with `closest_diff` initially infinite). -/
def replacesAcc (e : ℤ) (acc : ℚ × Option ℤ) (s : ℤ × ℚ) : Prop :=
  match acc.2 with
  | none => |s.1 - e| ≤ 30
  | some c => |s.1 - e| < c ∧ |s.1 - e| ≤ 30

lemma closerUpdate_of_replaces (e : ℤ) (acc : ℚ × Option ℤ) (s : ℤ × ℚ)
    (h : replacesAcc e acc s) : closerUpdate e acc s = (s.2, some |s.1 - e|) := by
  unfold closerUpdate
  unfold replacesAcc at h
  cases h2 : acc.2 with
  | none =>
    rw [h2] at h
    have h3 : |s.1 - e| ≤ 30 := h
    simp [h3]
  | some c =>
    rw [h2] at h
    have h3 : |s.1 - e| < c ∧ |s.1 - e| ≤ 30 := h
    simp [h3]

lemma closerUpdate_of_not_replaces (e : ℤ) (acc : ℚ × Option ℤ) (s : ℤ × ℚ)
    (h : ¬ replacesAcc e acc s) : closerUpdate e acc s = acc := by
  unfold closerUpdate
  unfold replacesAcc at h
  cases h2 : acc.2 with
  | none =>
    rw [h2] at h
    have h3 : ¬ |s.1 - e| ≤ 30 := h
    simp [h3]
  | some c =>
    rw [h2] at h
    have h3 : ¬ (|s.1 - e| < c ∧ |s.1 - e| ≤ 30) := h
    simp [h3]

lemma foldl_closerUpdate_spec (e : ℤ) (parsed : List (ℤ × ℚ)) :
    ∀ acc : ℚ × Option ℤ,
      (parsed.foldl (closerUpdate e) acc = acc
        ∧ ∀ s ∈ parsed, ¬ replacesAcc e acc s)
      ∨ (∃ s ∈ parsed, |s.1 - e| ≤ 30
          ∧ (parsed.foldl (closerUpdate e) acc).1 = s.2
          ∧ (parsed.foldl (closerUpdate e) acc).2 = some |s.1 - e|
          ∧ (∀ s2 ∈ parsed, |s2.1 - e| ≤ 30 → |s.1 - e| ≤ |s2.1 - e|)
          ∧ (∀ c, acc.2 = some c → |s.1 - e| < c)) := by
  induction parsed with
  | nil =>
    intro acc
    exact Or.inl ⟨rfl, fun s hs => absurd hs (List.not_mem_nil s)⟩
  | cons hd tl ih =>
    intro acc
    by_cases hrep : replacesAcc e acc hd
    · -- the head replaces the accumulator
      have hstep : closerUpdate e acc hd = (hd.2, some |hd.1 - e|) :=
        closerUpdate_of_replaces e acc hd hrep
      have hd30 : |hd.1 - e| ≤ 30 := by
        unfold replacesAcc at hrep
        cases h2 : acc.2 with
        | none => rw [h2] at hrep; exact hrep
        | some c => rw [h2] at hrep; exact hrep.2
      have hdlt : ∀ c, acc.2 = some c → |hd.1 - e| < c := by
        intro c h2
        unfold replacesAcc at hrep
        rw [h2] at hrep
        exact hrep.1
      rw [List.foldl_cons, hstep]
      rcases ih (hd.2, some |hd.1 - e|) with ⟨heq, hall⟩ | ⟨s, hs, hs30, hv, hc, hmin, hlt⟩
      · refine Or.inr ⟨hd, List.mem_cons_self hd tl, hd30, ?_, ?_, ?_, hdlt⟩
        · rw [heq]
        · rw [heq]
        · intro s2 hs2 h30
          rcases List.mem_cons.mp hs2 with h | h
          · rw [h]
          · have := hall s2 h
            unfold replacesAcc at this
            simp only at this
            omega
      · refine Or.inr ⟨s, List.mem_cons_of_mem hd hs, hs30, hv, hc, ?_, ?_⟩
        · intro s2 hs2 h30
          rcases List.mem_cons.mp hs2 with h | h
          · have := hlt |hd.1 - e| rfl
            rw [h]
            omega
          · exact hmin s2 h h30
        · intro c h2
          have h1 := hlt |hd.1 - e| rfl
          have h3 := hdlt c h2
          omega
    · -- the head is skipped
      have hstep : closerUpdate e acc hd = acc := closerUpdate_of_not_replaces e acc hd hrep
      rw [List.foldl_cons, hstep]
      rcases ih acc with ⟨heq, hall⟩ | ⟨s, hs, hs30, hv, hc, hmin, hlt⟩
      · refine Or.inl ⟨heq, ?_⟩
        intro s2 hs2
        rcases List.mem_cons.mp hs2 with h | h
        · rw [h]; exact hrep
        · exact hall s2 h
      · refine Or.inr ⟨s, List.mem_cons_of_mem hd hs, hs30, hv, hc, ?_, hlt⟩
        intro s2 hs2 h30
        rcases List.mem_cons.mp hs2 with h | h
        · subst h
          unfold replacesAcc at hrep
          cases h2 : acc.2 with
          | none => rw [h2] at hrep; exact absurd h30 hrep
          | some c =>
            rw [h2] at hrep
            have h1 := hlt c h2
            omega
        · exact hmin s2 h h30

lemma closestWithin30_of_none (e : ℤ) (parsed : List (ℤ × ℚ))
    (hall : ∀ s ∈ parsed, ¬ |s.1 - e| ≤ 30) : closestWithin30 parsed e = 0 := by
  unfold closestWithin30
  rcases foldl_closerUpdate_spec e parsed ((0 : ℚ), (none : Option ℤ)) with ⟨heq, _⟩ |
    ⟨s, hs, hs30, _, _, _, _⟩
  · rw [heq]
  · exact absurd hs30 (hall s hs)

lemma closestWithin30_of_some (e : ℤ) (parsed : List (ℤ × ℚ)) (s0 : ℤ × ℚ)
    (hs0 : s0 ∈ parsed) (h30 : |s0.1 - e| ≤ 30) :
    ∃ s ∈ parsed, |s.1 - e| ≤ 30 ∧ closestWithin30 parsed e = s.2
      ∧ ∀ s2 ∈ parsed, |s2.1 - e| ≤ 30 → |s.1 - e| ≤ |s2.1 - e| := by
  unfold closestWithin30
  rcases foldl_closerUpdate_spec e parsed ((0 : ℚ), (none : Option ℤ)) with ⟨_, hall⟩ |
    ⟨s, hs, hs30, hv, _, hmin, _⟩
  · have := hall s0 hs0
    unfold replacesAcc at this
    exact absurd h30 this
  · exact ⟨s, hs, hs30, hv, hmin⟩

/-- C7: on a successful ranged query the result is a window of exactly
`window_minutes` values (most recent minute last, slot `i` at
`end_time - (n-1-i)` minutes); each slot holds the closest parsed sample
within 30 seconds and 0.0 when no sample is within 30 seconds (samples at
`t-95s` and `t-40s` give slot `t` the value 0.0); a successful query with
zero parsed series yields a window of zeros rather than a failure. -/
theorem historical_window_alignment (parsed : List (ℤ × ℚ)) (n : ℕ) (endTime : ℤ) :
    (∃ w, get_historical_workload (some parsed) n endTime = some w ∧ w.length = n)
    ∧ (parsed = [] → get_historical_workload (some parsed) n endTime =
        some (List.replicate n (HistEntry.bare 0)))
    ∧ (∀ i, i < n → parsed ≠ [] →
        (histWindow parsed n endTime).getD i (HistEntry.bare 0) =
          HistEntry.boxed (closestWithin30 parsed (slotTime n endTime i)))
    ∧ (∀ e, (∀ s ∈ parsed, ¬ |s.1 - e| ≤ 30) → closestWithin30 parsed e = 0)
    ∧ (∀ e s0, s0 ∈ parsed → |s0.1 - e| ≤ 30 →
        ∃ s ∈ parsed, |s.1 - e| ≤ 30 ∧ closestWithin30 parsed e = s.2
          ∧ ∀ s2 ∈ parsed, |s2.1 - e| ≤ 30 → |s.1 - e| ≤ |s2.1 - e|)
    ∧ histWindow [(905, 5), (960, 7)] 1 1000 = [HistEntry.boxed 0] := by
  refine ⟨⟨histWindow parsed n endTime, rfl, ?_⟩, ?_, ?_, ?_, ?_, by decide⟩
  · unfold histWindow
    by_cases h : parsed.isEmpty
    · rw [if_pos h, List.length_replicate]
    · rw [if_neg h, List.length_map, List.length_range]
  · intro h
    subst h
    rfl
  · intro i hi hne
    unfold histWindow
    have hemp : parsed.isEmpty = false := by
      cases parsed with
      | nil => exact absurd rfl hne
      | cons a t => rfl
    rw [hemp]
    simp only [Bool.false_eq_true, if_false]
    have hlen : i < ((List.range n).map fun j =>
        HistEntry.boxed (closestWithin30 parsed (slotTime n endTime j))).length := by
      rw [List.length_map, List.length_range]
      exact hi
    rw [List.getD_eq_getElem _ _ hlen, List.getElem_map, List.getElem_range]
  · exact fun e hall => closestWithin30_of_none e parsed hall
  · exact fun e s0 hs0 h30 => closestWithin30_of_some e parsed s0 hs0 h30

/-- C7 witness: samples 95 s and 40 s before the slot are both outside the
30-second tolerance, so the slot value is 0.0. -/
theorem historical_window_alignment_witness :
    closestWithin30 [(905, 5), (960, 7)] 1000 = 0 :=
  (historical_window_alignment [(905, 5), (960, 7)] 1 1000).2.2.2.1 1000 (by decide)

lemma alistLookup_insert_self {β : Type} (name : String) (v : β) (l : List (String × β)) :
    alistLookup name (alistInsert name v l) = some v := by
  induction l with
  | nil => simp [alistInsert, alistLookup]
  | cons hd tl ih =>
    obtain ⟨n, v0⟩ := hd
    unfold alistInsert
    by_cases h : n = name
    · rw [if_pos h]
      unfold alistLookup
      rw [if_pos h]
    · rw [if_neg h]
      unfold alistLookup
      rw [if_neg h]
      exact ih

lemma alistLookup_insert_ne {β : Type} (name name2 : String) (v : β) (l : List (String × β))
    (h : name2 ≠ name) :
    alistLookup name (alistInsert name2 v l) = alistLookup name l := by
  induction l with
  | nil => simp [alistInsert, alistLookup, h]
  | cons hd tl ih =>
    obtain ⟨n, v0⟩ := hd
    unfold alistInsert
    by_cases h2 : n = name2
    · rw [if_pos h2]
      subst h2
      unfold alistLookup
      rw [if_neg h, if_neg h]
    · rw [if_neg h2]
      unfold alistLookup
      by_cases h3 : n = name
      · rw [if_pos h3, if_pos h3]
      · rw [if_neg h3, if_neg h3]
        exact ih

lemma foldl_process_lookup_other (crds : List CrdPolicy) (name : String)
    (hno : ∀ c2 ∈ crds, c2.deployment_name ≠ name) :
    ∀ reg : Registry,
      alistLookup name (crds.foldl (fun r p => process_crd_configuration p r) reg) =
        alistLookup name reg := by
  induction crds with
  | nil => intro reg; rfl
  | cons hd tl ih =>
    intro reg
    rw [List.foldl_cons]
    rw [ih (fun c2 h2 => hno c2 (List.mem_cons_of_mem hd h2))]
    unfold process_crd_configuration
    exact alistLookup_insert_ne name hd.deployment_name _ reg
      (hno hd (List.mem_cons_self hd tl))

lemma foldl_process_lookup (crds : List CrdPolicy) (c : CrdPolicy) (hc : c ∈ crds)
    (huniq : ∀ c2 ∈ crds, c2.deployment_name = c.deployment_name → c2 = c) :
    ∀ reg : Registry,
      alistLookup c.deployment_name
        (crds.foldl (fun r p => process_crd_configuration p r) reg) =
        some ⟨c.scaling_config, 0⟩ := by
  induction crds with
  | nil => exact absurd hc (List.not_mem_nil c)
  | cons hd tl ih =>
    intro reg
    rw [List.foldl_cons]
    by_cases htl : c ∈ tl
    · exact ih htl (fun c2 h2 he => huniq c2 (List.mem_cons_of_mem hd h2) he) _
    · have hhd : hd = c := by
        rcases List.mem_cons.mp hc with h | h
        · exact h.symm
        · exact absurd h htl
      subst hhd
      have hno : ∀ c2 ∈ tl, c2.deployment_name ≠ hd.deployment_name := by
        intro c2 h2 he
        exact htl (huniq c2 (List.mem_cons_of_mem hd h2) he ▸ h2)
      rw [foldl_process_lookup_other tl hd.deployment_name hno]
      unfold process_crd_configuration
      exact alistLookup_insert_self hd.deployment_name _ reg

/-- C5, amended: a reload that re-emits a policy for an already-monitored
target wholesale-replaces that target's registry entry, resetting its
error counter to 0 even when the policy is identical to the previous one —
but the cooldown state (the scaling algorithm's `last_scaling_time`) is a
separate structure the reload never touches, so it is not reset. -/
theorem reload_resets_errors_keeps_cooldown
    (crds : List CrdPolicy) (s : AutoscalerState) (c : CrdPolicy)
    (hc : c ∈ crds)
    (huniq : ∀ c2 ∈ crds, c2.deployment_name = c.deployment_name → c2 = c) :
    alistLookup c.deployment_name (reload_configurations crds s).monitored =
      some ⟨c.scaling_config, 0⟩
    ∧ (reload_configurations crds s).cooldowns = s.cooldowns :=
  ⟨foldl_process_lookup crds c hc huniq s.monitored, rfl⟩

/-- C5, counterexample to the claim as stated: reloading an identical
policy for a monitored target resets the error counter to 0 but leaves the
recorded cooldown timestamp in place — the cooldown state is not reset to
its initial (empty) value. -/
theorem reload_resets_errors_keeps_cooldown_cx :
    reload_configurations [CrdPolicy.mk "app" (ScalingConfig.mk 1 10 1 0 300)]
      (AutoscalerState.mk
        [("app", DeploymentEntry.mk (ScalingConfig.mk 1 10 1 0 300) 7)]
        [("app", 100)]) =
      AutoscalerState.mk
        [("app", DeploymentEntry.mk (ScalingConfig.mk 1 10 1 0 300) 0)]
        [("app", 100)]
    ∧ alistLookup "app"
        (reload_configurations [CrdPolicy.mk "app" (ScalingConfig.mk 1 10 1 0 300)]
          (AutoscalerState.mk
            [("app", DeploymentEntry.mk (ScalingConfig.mk 1 10 1 0 300) 7)]
            [("app", 100)])).cooldowns = some 100 := by
  constructor
  · decide
  · decide

/-- C5 witness: the amended reload behaviour at a concrete state. -/
theorem reload_resets_errors_keeps_cooldown_witness :
    alistLookup "app"
      (reload_configurations [CrdPolicy.mk "app" (ScalingConfig.mk 1 10 1 0 300)]
        (AutoscalerState.mk
          [("app", DeploymentEntry.mk (ScalingConfig.mk 1 10 1 0 300) 7)]
          [("app", 100)])).monitored =
      some ⟨ScalingConfig.mk 1 10 1 0 300, 0⟩
    ∧ (reload_configurations [CrdPolicy.mk "app" (ScalingConfig.mk 1 10 1 0 300)]
        (AutoscalerState.mk
          [("app", DeploymentEntry.mk (ScalingConfig.mk 1 10 1 0 300) 7)]
          [("app", 100)])).cooldowns =
        (AutoscalerState.mk
          [("app", DeploymentEntry.mk (ScalingConfig.mk 1 10 1 0 300) 7)]
          [("app", 100)]).cooldowns :=
  reload_resets_errors_keeps_cooldown
    [CrdPolicy.mk "app" (ScalingConfig.mk 1 10 1 0 300)]
    (AutoscalerState.mk
      [("app", DeploymentEntry.mk (ScalingConfig.mk 1 10 1 0 300) 7)]
      [("app", 100)])
    (CrdPolicy.mk "app" (ScalingConfig.mk 1 10 1 0 300))
    (by decide) (by decide)

lemma processTarget_error_count (env : TargetEnv) (cfg : ScalingConfig) (now : ℤ)
    (lastScaling : Option ℤ) (ec : ℕ) :
    (processTarget env cfg now lastScaling ec).error_count =
      if cycleFails env cfg now lastScaling then ec + 1 else 0 := by
  unfold processTarget cycleFails
  cases hd : decisionOfEnv env cfg now lastScaling with
  | none => simp
  | some d =>
    by_cases hs : isScalingAction d
    · by_cases ha : env.applyOk
      · simp [hs, ha]
      · simp [hs, ha]
    · simp [hs]

lemma runIteration_lookup_not_mem (envs : String → TargetEnv) (now : ℤ) (b : String) :
    ∀ (reg : Registry) (cdm : CooldownMap), (∀ p ∈ reg, p.1 ≠ b) →
      alistLookup b (runIteration envs now reg cdm).1 = none := by
  intro reg
  induction reg with
  | nil => intro cdm _; rfl
  | cons hd tl ih =>
    intro cdm hall
    obtain ⟨n, e⟩ := hd
    have hn : n ≠ b := hall (n, e) (List.mem_cons_self _ _)
    have htl : ∀ p ∈ tl, p.1 ≠ b := fun p hp => hall p (List.mem_cons_of_mem _ hp)
    unfold runIteration
    by_cases hev : 10 < (stepResult envs now n e cdm).error_count
    · rw [if_pos hev]
      exact ih (stepCdm envs now n e cdm) htl
    · rw [if_neg hev]
      unfold alistLookup
      rw [if_neg hn]
      exact ih (stepCdm envs now n e cdm) htl

lemma stepCdm_lookup_other (envs : String → TargetEnv) (now : ℤ) (n : String)
    (e : DeploymentEntry) (cdm : CooldownMap) (b : String) (h : n ≠ b) :
    alistLookup b (stepCdm envs now n e cdm) = alistLookup b cdm := by
  unfold stepCdm
  by_cases hr : (stepResult envs now n e cdm).recorded_cooldown
  · rw [if_pos hr]
    exact alistLookup_insert_ne b n now cdm h
  · rw [if_neg hr]

lemma alistLookup_cons {β : Type} (n b : String) (v : β) (l : List (String × β)) :
    alistLookup b ((n, v) :: l) = if n = b then some v else alistLookup b l := rfl

lemma runIteration_lookup (envs : String → TargetEnv) (now : ℤ) (b : String) :
    ∀ (reg : Registry) (cdm : CooldownMap), (reg.map Prod.fst).Nodup →
      ∀ e : DeploymentEntry, alistLookup b reg = some e →
      alistLookup b (runIteration envs now reg cdm).1 =
        (if 10 < (processTarget (envs b) e.scaling_config now (alistLookup b cdm)
            e.error_count).error_count then none
         else some ⟨e.scaling_config, (processTarget (envs b) e.scaling_config now
            (alistLookup b cdm) e.error_count).error_count⟩) := by
  intro reg
  induction reg with
  | nil =>
    intro cdm _ e he
    exact absurd he (fun h => Option.noConfusion h)
  | cons hd tl ih =>
    intro cdm hnd e he
    obtain ⟨n, e0⟩ := hd
    have hnd1 : n ∉ tl.map Prod.fst := (List.nodup_cons.mp hnd).1
    have hnd2 : (tl.map Prod.fst).Nodup := (List.nodup_cons.mp hnd).2
    unfold runIteration
    by_cases hb : n = b
    · subst hb
      have he0 : e0 = e := by
        rw [alistLookup_cons, if_pos rfl] at he
        exact Option.some.inj he
      subst he0
      have hstep : stepResult envs now n e0 cdm =
          processTarget (envs n) e0.scaling_config now (alistLookup n cdm)
            e0.error_count := rfl
      by_cases hev : 10 < (stepResult envs now n e0 cdm).error_count
      · rw [if_pos hev, if_pos (hstep ▸ hev)]
        apply runIteration_lookup_not_mem
        intro p hp hpb
        exact hnd1 (hpb ▸ List.mem_map_of_mem Prod.fst hp)
      · rw [if_neg hev, if_neg (hstep ▸ hev), alistLookup_cons, if_pos rfl, hstep]
    · have he2 : alistLookup b tl = some e := by
        rw [alistLookup_cons, if_neg hb] at he
        exact he
      by_cases hev : 10 < (stepResult envs now n e0 cdm).error_count
      · rw [if_pos hev]
        rw [ih (stepCdm envs now n e0 cdm) hnd2 e he2]
        rw [stepCdm_lookup_other envs now n e0 cdm b hb]
      · rw [if_neg hev, alistLookup_cons, if_neg hb]
        rw [ih (stepCdm envs now n e0 cdm) hnd2 e he2]
        rw [stepCdm_lookup_other envs now n e0 cdm b hb]

/-- C4: a target's error counter becomes `old + 1` on a cycle-ending
failure and 0 on a fully successful cycle (a `no_action` outcome
included); after the iteration the target remains in the registry with the
new counter exactly when the counter does not exceed 10 (so the 11th
consecutive failure, counting from 0, evicts it); and the target's
post-iteration entry is the same under any environment that agrees with
the original on that target, so other targets' failures cannot affect
it. -/
theorem error_counter_eviction_isolation
    (envs envs2 : String → TargetEnv) (now : ℤ) (reg : Registry) (cdm : CooldownMap)
    (b : String) (e : DeploymentEntry)
    (hnd : (reg.map Prod.fst).Nodup) (hb : alistLookup b reg = some e)
    (hagree : envs2 b = envs b) :
    (processTarget (envs b) e.scaling_config now (alistLookup b cdm) e.error_count).error_count
      = (if cycleFails (envs b) e.scaling_config now (alistLookup b cdm)
          then e.error_count + 1 else 0)
    ∧ alistLookup b (runIteration envs now reg cdm).1 =
        (if 10 < (processTarget (envs b) e.scaling_config now (alistLookup b cdm)
            e.error_count).error_count then none
         else some ⟨e.scaling_config, (processTarget (envs b) e.scaling_config now
            (alistLookup b cdm) e.error_count).error_count⟩)
    ∧ alistLookup b (runIteration envs2 now reg cdm).1 =
        alistLookup b (runIteration envs now reg cdm).1 := by
  refine ⟨processTarget_error_count (envs b) e.scaling_config now (alistLookup b cdm)
    e.error_count, runIteration_lookup envs now b reg cdm hnd e hb, ?_⟩
  rw [runIteration_lookup envs now b reg cdm hnd e hb,
    runIteration_lookup envs2 now b reg cdm hnd e hb, hagree]

/-- C4 witness: target "a" fails its 11th consecutive cycle (counter 10
becomes 11) and is evicted, while target "b" is untouched; replacing the
environment of every other target leaves "a"'s outcome unchanged. -/
theorem error_counter_eviction_isolation_witness :
    (processTarget ((fun _ => TargetEnv.mk false none none none false) "a")
      (DeploymentEntry.mk (ScalingConfig.mk 1 10 1 0 300) 10).scaling_config 0
      (alistLookup "a" ([] : CooldownMap))
      (DeploymentEntry.mk (ScalingConfig.mk 1 10 1 0 300) 10).error_count).error_count
      = (if cycleFails ((fun _ => TargetEnv.mk false none none none false) "a")
          (DeploymentEntry.mk (ScalingConfig.mk 1 10 1 0 300) 10).scaling_config 0
          (alistLookup "a" ([] : CooldownMap))
          then (DeploymentEntry.mk (ScalingConfig.mk 1 10 1 0 300) 10).error_count + 1 else 0)
    ∧ alistLookup "a"
        (runIteration (fun _ => TargetEnv.mk false none none none false) 0
          [("a", DeploymentEntry.mk (ScalingConfig.mk 1 10 1 0 300) 10),
           ("b", DeploymentEntry.mk (ScalingConfig.mk 1 10 1 0 300) 0)] []).1 =
        (if 10 < (processTarget ((fun _ => TargetEnv.mk false none none none false) "a")
            (DeploymentEntry.mk (ScalingConfig.mk 1 10 1 0 300) 10).scaling_config 0
            (alistLookup "a" ([] : CooldownMap))
            (DeploymentEntry.mk (ScalingConfig.mk 1 10 1 0 300) 10).error_count).error_count
          then none
          else some ⟨(DeploymentEntry.mk (ScalingConfig.mk 1 10 1 0 300) 10).scaling_config,
            (processTarget ((fun _ => TargetEnv.mk false none none none false) "a")
              (DeploymentEntry.mk (ScalingConfig.mk 1 10 1 0 300) 10).scaling_config 0
              (alistLookup "a" ([] : CooldownMap))
              (DeploymentEntry.mk (ScalingConfig.mk 1 10 1 0 300) 10).error_count).error_count⟩)
    ∧ alistLookup "a"
        (runIteration (fun name => if name = "b"
            then TargetEnv.mk false (some 1) (some [1]) (some 1) true
            else TargetEnv.mk false none none none false) 0
          [("a", DeploymentEntry.mk (ScalingConfig.mk 1 10 1 0 300) 10),
           ("b", DeploymentEntry.mk (ScalingConfig.mk 1 10 1 0 300) 0)] []).1 =
        alistLookup "a"
          (runIteration (fun _ => TargetEnv.mk false none none none false) 0
            [("a", DeploymentEntry.mk (ScalingConfig.mk 1 10 1 0 300) 10),
             ("b", DeploymentEntry.mk (ScalingConfig.mk 1 10 1 0 300) 0)] []).1 :=
  error_counter_eviction_isolation
    (fun _ => TargetEnv.mk false none none none false)
    (fun name => if name = "b"
      then TargetEnv.mk false (some 1) (some [1]) (some 1) true
      else TargetEnv.mk false none none none false)
    0
    [("a", DeploymentEntry.mk (ScalingConfig.mk 1 10 1 0 300) 10),
     ("b", DeploymentEntry.mk (ScalingConfig.mk 1 10 1 0 300) 0)]
    [] "a" (DeploymentEntry.mk (ScalingConfig.mk 1 10 1 0 300) 10)
    (by decide) (by decide) (by decide)
